import Mathlib

/-!
Shallow embedding of `stats_arrays/distributions/lognormal.py`
(`LognormalUncertainty`), together with the shared input-shaping helper it
relies on.

Modelling conventions:
  * a parameter-table row is a `Params` record; every float field that the
    code tests with `np.isnan` is an `Option ℚ`, with `none` standing for
    NaN and `some q` for a real value;
  * value / percentage matrices are `List (List ℝ)`;
  * the scipy numerical kernels (`stats.lognorm.cdf`, `stats.lognorm.ppf`,
    `np.random.lognormal`) are abstracted as function parameters, so that
    theorems about which fields the code feeds into which kernel slot hold
    for every kernel; for round-trip questions the kernels are
    instantiated with their documented closed forms
    (`lognorm.cdf(x, s, scale=m) = Φ(log(x/m)/s)`,
    `lognorm.ppf(p, s, scale=m) = m·exp(s·Φ⁻¹(p))`), with the standard
    normal CDF `Φ` kept abstract;
  * the in-place mutation of the caller's vector inside `cdf` is modelled
    by state passing: `cdf` returns both the results matrix and the final
    contents of the caller's buffer.
-/

namespace StatsArrays

/-- A row of the 2D parameter table. `none` in a numeric field models NaN
(the "unset" sentinel); `some q` models an actual float value. -/
structure Params where
  loc : Option ℚ
  scale : Option ℚ
  shape : Option ℚ
  minimum : Option ℚ
  maximum : Option ℚ
  negative : Bool
deriving DecidableEq, Repr

/-- Read a numeric field as a real number (only meaningful on non-NaN
fields; all theorems that evaluate kernels restrict to `some` values). -/
noncomputable def qr (o : Option ℚ) : ℝ := ((o.getD 0 : ℚ) : ℝ)

/-- The `InvalidParamsError` raised by `validate`, tagged with the field
named in the error message. -/
inductive InvalidParamsError where
  | scale
  | shape
deriving DecidableEq, Repr

/-- The `ImproperBoundsError` used for input-shape violations. -/
inductive ImproperBoundsError where
  | shapeMismatch
deriving DecidableEq, Repr

/-- A float field satisfies the lognormal domain requirement: real (not
NaN) and strictly positive. -/
def okParam : Option ℚ → Bool
  | none => false
  | some q => decide (0 < q)

/-- The failure condition tested by `validate` for one field of one row:
`np.isnan(x)` or `x <= 0` (NaN compares false, so the two numpy tests
together are exactly the negation of `okParam`). -/
def badParam : Option ℚ → Bool
  | none => true
  | some q => decide (q ≤ 0)

/-- Embedding of `LognormalUncertainty.validate` (lognormal.py lines
13-26): raise naming `scale` if any row has NaN or non-positive `scale`,
else raise naming `shape` if any row has NaN or non-positive `shape`,
else succeed. -/
def validate (params : List Params) : Except InvalidParamsError Unit :=
  if params.any (fun p => badParam p.scale) then .error .scale
  else if params.any (fun p => badParam p.shape) then .error .shape
  else .ok ()

/-- A value/percentage argument as the caller supplies it: a 1D numpy
array or a 2D matrix. -/
inductive VectorInput where
  | one : List ℝ → VectorInput
  | two : List (List ℝ) → VectorInput

/-- Modelled from the spec: `UncertaintyBase.check_2d_inputs` (base.py is
not in src/). Per the spec's shared shaping rule, a value/probability
argument is coerced into a 2D shape whose row count matches the parameter
table's row count: a 1D input is broadcast across rows, a 2D input must
have a matching row count, and a mismatch is an input-shape error. A 2D
input with matching rows is passed through unchanged (same buffer), so a
later in-place mutation is visible to the caller. -/
def check_2d_inputs (params : List Params) (v : VectorInput) :
    Except ImproperBoundsError (List (List ℝ)) :=
  match v with
  | .one xs => .ok (List.replicate params.length xs)
  | .two m => if m.length = params.length then .ok m else .error .shapeMismatch

/-- Embedding of the in-place sign flip
`vector[params['negative']] = -1 * vector[params['negative']]`:
rows whose parameter row is flagged `negative` are negated elementwise,
other rows are untouched. -/
def flipNegativeRows (params : List Params) (m : List (List ℝ)) :
    List (List ℝ) :=
  List.zipWith (fun p row => if p.negative then row.map (fun x => -x) else row)
    params m

/-- Embedding of `LognormalUncertainty.cdf` (lognormal.py lines 42-56),
abstracted over the scipy kernel `k x s m := stats.lognorm.cdf(x, s,
scale=m)`. The code shapes the input, negates flagged rows of the
caller's buffer in place, and fills row `r` of the result with
`k (vector[r][j]) (scale[r]) (loc[r])` — note the second positional
argument (the primitive's shape slot) receives the `scale` field and the
`scale=` keyword (the primitive's scale slot) receives the `loc` field.
The returned pair is (results, final contents of the caller's buffer). -/
noncomputable def cdf (k : ℝ → ℝ → ℝ → ℝ) (params : List Params) (vector : VectorInput) :
    Except ImproperBoundsError (List (List ℝ) × List (List ℝ)) :=
  match check_2d_inputs params vector with
  | .error e => .error e
  | .ok v0 =>
    let v := flipNegativeRows params v0
    let results := List.zipWith
      (fun p row => row.map (fun x => k x (qr p.scale) (qr p.loc))) params v
    .ok (results, v)

/-- Embedding of `LognormalUncertainty.ppf` (lognormal.py lines 58-69),
abstracted over the scipy kernel `k x s m := stats.lognorm.ppf(x, s,
scale=m)`. Row `r` of the intermediate result is
`k (percentages[r][j]) (shape[r]) (scale[r])`; afterwards rows flagged
`negative` are negated. -/
noncomputable def ppf (k : ℝ → ℝ → ℝ → ℝ) (params : List Params)
    (percentages : VectorInput) :
    Except ImproperBoundsError (List (List ℝ)) :=
  match check_2d_inputs params percentages with
  | .error e => .error e
  | .ok ps =>
    let results := List.zipWith
      (fun p row => row.map (fun x => k x (qr p.shape) (qr p.scale))) params ps
    .ok (flipNegativeRows params results)

/-- Embedding of `LognormalUncertainty.random_variables` (lognormal.py
lines 28-40), abstracted over the positive-domain generator `sampler`:
`sampler mu sigma r i` is the variate `np.random.lognormal(mu, sigma)`
drawn at matrix position (row `r`, column `i`) after the transpose. The
code first draws a (rows × size) matrix with each row's own
(`scale`, `shape`) as (mu, sigma), then negates every entry of each row
flagged `negative`. -/
noncomputable def random_variables (sampler : ℝ → ℝ → ℕ → ℕ → ℝ)
    (params : List Params) (size : ℕ) : List (List ℝ) :=
  let data := List.zipWith
    (fun r p => (List.range size).map (fun i => sampler (qr p.scale) (qr p.shape) r i))
    (List.range params.length) params
  List.zipWith (fun p row => if p.negative then row.map (fun x => -x) else row)
    params data

/-- The record returned by `statistics`. -/
structure Stats where
  median : ℝ
  mode : ℝ
  mean : ℝ
  lower : ℝ
  upper : ℝ

/-- Embedding of `LognormalUncertainty.statistics` (lognormal.py lines
71-93) on a single parameter row (the `one_row_params_array` decorator,
modelled from the spec, unwraps a one-row table to that row). The
`set_negative_flag` helper invoked when `transform` is requested lives
outside src/ and is abstracted as the argument `snf`. -/
noncomputable def statistics (snf : Params → Params) (p : Params)
    (transform : Bool) : Stats :=
  let p := if transform then snf p else p
  let negative : ℝ := if p.negative then -1 else 1
  let geometric_mu : ℝ := Real.exp (qr p.scale)
  let sigma : ℝ := qr p.shape
  let mu : ℝ := qr p.scale
  let geometric_sigma : ℝ := Real.exp sigma
  let mean : ℝ := Real.exp (mu + sigma ^ 2 / 2)
  let mode : ℝ := Real.exp (mu - sigma ^ 2)
  let ci_95_lower : ℝ := geometric_mu / geometric_sigma ^ 2
  let ci_95_upper : ℝ := geometric_mu * geometric_sigma ^ 2
  let ci : ℝ × ℝ :=
    if negative = -1 then (ci_95_upper, ci_95_lower) else (ci_95_lower, ci_95_upper)
  { median := negative * geometric_mu
    mode := negative * mode
    mean := negative * mean
    lower := negative * ci.1
    upper := negative * ci.2 }

/-- Synthesized lower bound of the default plotting domain in `pdf`
(lognormal.py lines 101-105): `scale / exp(shape)^sd` when `minimum` is
NaN, otherwise `abs(minimum)`. `sd` is the class constant
`standard_deviations_in_default_range` from base.py (not in src/),
modelled from the spec as an arbitrary fixed constant. -/
noncomputable def pdfDefaultMinimum (sd : ℝ) (p : Params) : ℝ :=
  if p.minimum.isNone then qr p.scale / Real.exp (qr p.shape) ^ sd
  else |qr p.minimum|

/-- Synthesized upper bound of the default plotting domain in `pdf`
(lognormal.py lines 106-110): `scale * exp(shape)^sd` when `maximum` is
NaN, otherwise `abs(params['minimum'])` — the code reads the `minimum`
field in this branch. -/
noncomputable def pdfDefaultMaximum (sd : ℝ) (p : Params) : ℝ :=
  if p.maximum.isNone then qr p.scale * Real.exp (qr p.shape) ^ sd
  else |qr p.minimum|

/-- Embedding of `np.linspace(a, b, n)`: `n` evenly spaced points from
`a` to `b`. -/
noncomputable def linspace (a b : ℝ) (n : ℕ) : List ℝ :=
  (List.range n).map (fun i => a + (b - a) * i / (n - 1))

/-- Embedding of `LognormalUncertainty.pdf` (lognormal.py lines 95-122)
on a single parameter row, abstracted over the scipy density kernel
`dens x s m := stats.lognorm.pdf(x, s, scale=m)`, the class constants
`sd := standard_deviations_in_default_range` and
`npts := default_number_points_in_pdf` (both in base.py, not in src/).
When no abscissae are supplied the default domain is synthesized from
`pdfDefaultMinimum` and `pdfDefaultMaximum`; `ys` uses the row's
(`shape`, `scale`) as kernel parameters, and `xs` is negated before
return when the row is flagged `negative`. -/
noncomputable def pdf (dens : ℝ → ℝ → ℝ → ℝ) (sd : ℝ) (npts : ℕ)
    (p : Params) (xs0 : Option (List ℝ)) : List ℝ × List ℝ :=
  let xs := match xs0 with
    | some xs => xs
    | none => linspace (pdfDefaultMinimum sd p) (pdfDefaultMaximum sd p) npts
  let ys := xs.map (fun x => dens x (qr p.shape) (qr p.scale))
  let xs := if p.negative then xs.map (fun x => -x) else xs
  (xs, ys)

/-- Documented closed form of `scipy.stats.lognorm.cdf(x, s, scale=m)`
for `x` in the support: `Φ(log(x/m)/s)`, with the standard normal CDF `Φ`
abstract. -/
noncomputable def lognormCdf (Φ : ℝ → ℝ) (x s m : ℝ) : ℝ :=
  Φ (Real.log (x / m) / s)

/-- Documented closed form of `scipy.stats.lognorm.ppf(p, s, scale=m)`:
`m · exp(s · Φ⁻¹(p))`, with the standard normal quantile `Φ⁻¹` abstract. -/
noncomputable def lognormPpf (Φinv : ℝ → ℝ) (p s m : ℝ) : ℝ :=
  m * Real.exp (s * Φinv p)

/-- Example row with all fields real and valid. -/
def rowGood : Params :=
  { loc := some 1, scale := some 2, shape := some 3,
    minimum := none, maximum := none, negative := false }

/-- Example row whose `scale` is NaN. -/
def rowNaNScale : Params :=
  { loc := some 1, scale := none, shape := some 3,
    minimum := none, maximum := none, negative := false }

lemma badParam_iff_not_okParam (o : Option ℚ) :
    badParam o = true ↔ ¬ okParam o = true := by
  cases o <;> simp [badParam, okParam, not_lt]

lemma okParam_iff_not_badParam (o : Option ℚ) :
    okParam o = true ↔ ¬ badParam o = true := by
  cases o <;> simp [badParam, okParam, not_le]

lemma any_comp_map {α β : Type} (f : α → β) (q : β → Bool) (l : List α) :
    (l.map f).any q = l.any (fun a => q (f a)) := by
  induction l with
  | nil => rfl
  | cons a l ih => simp [ih]

lemma getElem?_zipWith_some {α β γ : Type} (f : α → β → γ) (l₁ : List α)
    (l₂ : List β) (r : ℕ) (a : α) (b : β)
    (ha : l₁[r]? = some a) (hb : l₂[r]? = some b) :
    (List.zipWith f l₁ l₂)[r]? = some (f a b) := by
  induction l₁ generalizing l₂ r with
  | nil => simp at ha
  | cons x xs ih =>
    cases l₂ with
    | nil => simp at hb
    | cons y ys =>
      cases r with
      | zero =>
        simp only [List.getElem?_cons_zero, Option.some.injEq] at ha hb
        simp [ha, hb]
      | succ r =>
        simp only [List.getElem?_cons_succ] at ha hb
        simpa using ih ys r ha hb

/-- C3: `validate` succeeds exactly when every row has a real, strictly
positive `scale` and a real, strictly positive `shape`; when it raises,
the field named by the error is genuinely offending in some row. -/
theorem C3_validate_domain (params : List Params) :
    (validate params = .ok () ↔
      ∀ p ∈ params, okParam p.scale = true ∧ okParam p.shape = true)
    ∧ (validate params = .error .scale → ∃ p ∈ params, ¬ okParam p.scale = true)
    ∧ (validate params = .error .shape → ∃ p ∈ params, ¬ okParam p.shape = true) := by
  by_cases h1 : params.any (fun p => badParam p.scale) = true
  · have hv : validate params = .error .scale := by simp [validate, h1]
    obtain ⟨p, hp, hbad⟩ := List.any_eq_true.mp h1
    rw [hv]
    refine ⟨iff_of_false (by simp) ?_, fun _ => ⟨p, hp, (badParam_iff_not_okParam _).mp hbad⟩,
      fun h => absurd h (by simp)⟩
    intro hall
    exact (badParam_iff_not_okParam _).mp hbad (hall p hp).1
  · by_cases h2 : params.any (fun p => badParam p.shape) = true
    · have hv : validate params = .error .shape := by simp [validate, h1, h2]
      obtain ⟨p, hp, hbad⟩ := List.any_eq_true.mp h2
      rw [hv]
      refine ⟨iff_of_false (by simp) ?_, fun h => absurd h (by simp),
        fun _ => ⟨p, hp, (badParam_iff_not_okParam _).mp hbad⟩⟩
      intro hall
      exact (badParam_iff_not_okParam _).mp hbad (hall p hp).2
    · have hv : validate params = .ok () := by simp [validate, h1, h2]
      rw [hv]
      refine ⟨iff_of_true rfl ?_, fun h => absurd h (by simp),
        fun h => absurd h (by simp)⟩
      intro p hp
      rw [List.any_eq_true] at h1 h2
      push_neg at h1 h2
      constructor
      · exact (okParam_iff_not_badParam _).mpr (by simpa using h1 p hp)
      · exact (okParam_iff_not_badParam _).mpr (by simpa using h2 p hp)

/-- C3 witness: the general theorem applied to the one-row table whose
`scale` is NaN. -/
theorem C3_validate_domain_witness :
    (validate [rowNaNScale] = .ok () ↔
      ∀ p ∈ [rowNaNScale], okParam p.scale = true ∧ okParam p.shape = true)
    ∧ (validate [rowNaNScale] = .error .scale →
        ∃ p ∈ [rowNaNScale], ¬ okParam p.scale = true)
    ∧ (validate [rowNaNScale] = .error .shape →
        ∃ p ∈ [rowNaNScale], ¬ okParam p.shape = true) :=
  C3_validate_domain [rowNaNScale]

/-- C10: the outcome of `validate` depends only on the `scale` and
`shape` columns; any row with valid `scale` and `shape` passes `validate`
whatever its `loc` (NaN or non-positive included); yet `cdf` feeds the
row's `loc` into the primitive's scale slot. -/
theorem C10_validate_reads_only_scale_shape (t1 t2 : List Params)
    (hsc : t1.map Params.scale = t2.map Params.scale)
    (hsh : t1.map Params.shape = t2.map Params.shape) :
    validate t1 = validate t2
    ∧ (∀ p : Params, okParam p.scale = true → okParam p.shape = true →
        validate [p] = .ok ())
    ∧ (∀ (kk : ℝ → ℝ → ℝ → ℝ) (p : Params) (x : ℝ), p.negative = false →
        cdf kk [p] (.two [[x]]) = .ok ([[kk x (qr p.scale) (qr p.loc)]], [[x]])) := by
  have e1 : t1.any (fun p => badParam p.scale) = t2.any (fun p => badParam p.scale) := by
    rw [← any_comp_map Params.scale badParam t1, hsc,
      any_comp_map Params.scale badParam t2]
  have e2 : t1.any (fun p => badParam p.shape) = t2.any (fun p => badParam p.shape) := by
    rw [← any_comp_map Params.shape badParam t1, hsh,
      any_comp_map Params.shape badParam t2]
  refine ⟨by simp only [validate, e1, e2], fun p h1 h2 => ?_, fun kk p x hneg => ?_⟩
  · have b1 : badParam p.scale = false := by
      have := (okParam_iff_not_badParam p.scale).mp h1
      simpa using this
    have b2 : badParam p.shape = false := by
      have := (okParam_iff_not_badParam p.shape).mp h2
      simpa using this
    simp [validate, b1, b2]
  · simp [cdf, check_2d_inputs, flipNegativeRows, hneg]

/-- Example row agreeing with `rowGood` on `scale` and `shape` but with
NaN `loc`, set bounds, and the `negative` flag raised. -/
def rowGoodVariant : Params :=
  { loc := none, scale := some 2, shape := some 3,
    minimum := some 5, maximum := some 7, negative := true }

/-- C10 witness: the general theorem applied to two concrete tables
agreeing on `scale` and `shape` but differing in `loc`, `minimum`,
`maximum` and `negative`. -/
theorem C10_validate_reads_only_scale_shape_witness :
    validate [rowGood] = validate [rowGoodVariant]
    ∧ (∀ p : Params, okParam p.scale = true → okParam p.shape = true →
        validate [p] = .ok ())
    ∧ (∀ (kk : ℝ → ℝ → ℝ → ℝ) (p : Params) (x : ℝ), p.negative = false →
        cdf kk [p] (.two [[x]]) = .ok ([[kk x (qr p.scale) (qr p.loc)]], [[x]])) :=
  C10_validate_reads_only_scale_shape [rowGood] [rowGoodVariant] rfl rfl

/-- Example row with the `negative` flag set. -/
def rowNeg : Params :=
  { loc := some 1, scale := some 2, shape := some 3,
    minimum := none, maximum := none, negative := true }

/-- Kernel that reports its three slots with different weights, used to
distinguish which field the code feeds into which slot. -/
def slotProbe : ℝ → ℝ → ℝ → ℝ := fun x s m => x + 10 * s + 100 * m

/-- Example row with three pairwise different numeric fields, used to
probe slot wiring: `loc = 3`, `scale = 2`, `shape = 1`. -/
def rowProbe : Params :=
  { loc := some 3, scale := some 2, shape := some 1,
    minimum := none, maximum := none, negative := false }

/-- C2 counterexample: on the row with `shape = 1`, `scale = 2`,
`loc = 3` and input value 0, `cdf` produces `slotProbe 0 2 3 = 320`
(scale in the shape slot, loc in the scale slot), while the claimed
shape/scale pairing would give `slotProbe 0 1 2 = 210`. -/
theorem C2_cdf_slots_counterexample :
    cdf slotProbe [rowProbe] (.two [[0]]) = .ok ([[(320 : ℝ)]], [[0]])
    ∧ slotProbe 0 (qr rowProbe.shape) (qr rowProbe.scale) = (210 : ℝ)
    ∧ (320 : ℝ) ≠ (210 : ℝ) := by
  refine ⟨?_, ?_, by norm_num⟩
  · simp only [cdf, check_2d_inputs, flipNegativeRows, slotProbe, qr, rowProbe]
    norm_num
  · simp only [slotProbe, qr, rowProbe]
    norm_num

/-- C2 amended: row `r` of the `cdf` result applies the kernel to the
(sign-flipped) input row with the row's own `scale` field in the
primitive's shape slot and the row's own `loc` field in the primitive's
scale slot. -/
theorem C2_cdf_uses_scale_and_loc (k : ℝ → ℝ → ℝ → ℝ) (params : List Params)
    (m : List (List ℝ)) (hlen : m.length = params.length)
    (r : ℕ) (p : Params) (row : List ℝ)
    (hp : params[r]? = some p) (hm : m[r]? = some row) :
    ∃ buf, cdf k params (.two m) =
      .ok (List.zipWith (fun q vrow => vrow.map (fun x => k x (qr q.scale) (qr q.loc)))
        params (flipNegativeRows params m), buf)
    ∧ (List.zipWith (fun q vrow => vrow.map (fun x => k x (qr q.scale) (qr q.loc)))
        params (flipNegativeRows params m))[r]? =
      some ((if p.negative then row.map (fun x => -x) else row).map
        (fun x => k x (qr p.scale) (qr p.loc))) := by
  have hflip : (flipNegativeRows params m)[r]? =
      some (if p.negative then row.map (fun x => -x) else row) :=
    getElem?_zipWith_some _ params m r p row hp hm
  refine ⟨flipNegativeRows params m, ?_, ?_⟩
  · simp [cdf, check_2d_inputs, hlen]
  · exact getElem?_zipWith_some _ params (flipNegativeRows params m) r p _ hp hflip

/-- C2 witness: the amended theorem applied to a concrete two-row table
and matrix at row index 1. -/
theorem C2_cdf_uses_scale_and_loc_witness :
    ∃ buf, cdf slotProbe [rowGood, rowNeg] (.two [[4], [5]]) =
      .ok (List.zipWith (fun q vrow => vrow.map (fun x => slotProbe x (qr q.scale) (qr q.loc)))
        [rowGood, rowNeg] (flipNegativeRows [rowGood, rowNeg] [[4], [5]]), buf)
    ∧ (List.zipWith (fun q vrow => vrow.map (fun x => slotProbe x (qr q.scale) (qr q.loc)))
        [rowGood, rowNeg] (flipNegativeRows [rowGood, rowNeg] [[4], [5]]))[1]? =
      some ((if rowNeg.negative then List.map (fun x => -x) [(5 : ℝ)] else [(5 : ℝ)]).map
        (fun x => slotProbe x (qr rowNeg.scale) (qr rowNeg.loc))) :=
  C2_cdf_uses_scale_and_loc slotProbe [rowGood, rowNeg] [[4], [5]] rfl 1
    rowNeg [(5 : ℝ)] rfl rfl

/-- C8: a 2D value matrix whose row count differs from the parameter
table's row count makes `cdf` fail with the input-shape error instead of
broadcasting or truncating. -/
theorem C8_cdf_shape_mismatch (k : ℝ → ℝ → ℝ → ℝ) (params : List Params)
    (m : List (List ℝ)) (hne : m.length ≠ params.length) :
    cdf k params (.two m) = .error .shapeMismatch := by
  simp [cdf, check_2d_inputs, hne]

/-- C8 witness: a 3-row parameter table with a 2-row value matrix. -/
theorem C8_cdf_shape_mismatch_witness :
    cdf slotProbe [rowGood, rowGood, rowGood] (.two [[1], [2]]) =
      .error .shapeMismatch :=
  C8_cdf_shape_mismatch slotProbe [rowGood, rowGood, rowGood] [[1], [2]]
    (by decide)

/-- C6: on a 2D input of matching row count, `cdf` succeeds and the final
contents of the caller's buffer (passed through unchanged by the shaping
helper and then mutated in place) have every row flagged `negative`
negated elementwise and every other row unchanged. -/
theorem C6_cdf_mutates_caller_buffer (k : ℝ → ℝ → ℝ → ℝ)
    (params : List Params) (m : List (List ℝ))
    (hlen : m.length = params.length) :
    ∃ results, cdf k params (.two m) = .ok (results, flipNegativeRows params m)
    ∧ ∀ (r : ℕ) (p : Params) (row : List ℝ),
        params[r]? = some p → m[r]? = some row →
        (flipNegativeRows params m)[r]? =
          some (if p.negative then row.map (fun x => -x) else row) := by
  refine ⟨List.zipWith (fun q vrow => vrow.map (fun x => k x (qr q.scale) (qr q.loc)))
      params (flipNegativeRows params m), ?_,
    fun r p row hp hm => getElem?_zipWith_some _ params m r p row hp hm⟩
  simp [cdf, check_2d_inputs, hlen]

/-- C6 witness: the theorem applied to a concrete table with one
non-mirrored and one mirrored row. -/
theorem C6_cdf_mutates_caller_buffer_witness :
    ∃ results, cdf slotProbe [rowGood, rowNeg] (.two [[4], [5]]) =
      .ok (results, flipNegativeRows [rowGood, rowNeg] [[4], [5]])
    ∧ ∀ (r : ℕ) (p : Params) (row : List ℝ),
        [rowGood, rowNeg][r]? = some p → [[(4 : ℝ)], [(5 : ℝ)]][r]? = some row →
        (flipNegativeRows [rowGood, rowNeg] [[4], [5]])[r]? =
          some (if p.negative then row.map (fun x => -x) else row) :=
  C6_cdf_mutates_caller_buffer slotProbe [rowGood, rowNeg] [[4], [5]] rfl

/-- C7: `random_variables` returns a (rows × size) matrix; row `r` is
the list of `size` draws of the positive-domain generator at the row's
own (`scale`, `shape`) as (mu, sigma), negated elementwise afterwards
exactly when the row is flagged `negative`; in particular, when the
generator has positive support, every entry of a mirrored row is the
negation of a positive draw. -/
theorem C7_random_variables_postdraw_negation (sampler : ℝ → ℝ → ℕ → ℕ → ℝ)
    (params : List Params) (size : ℕ)
    (hpos : ∀ mu sigma r i, 0 < sampler mu sigma r i) :
    (random_variables sampler params size).length = params.length
    ∧ (∀ row ∈ random_variables sampler params size, row.length = size)
    ∧ (∀ (r : ℕ) (p : Params), params[r]? = some p →
        (random_variables sampler params size)[r]? =
          some (if p.negative
            then ((List.range size).map
                (fun i => sampler (qr p.scale) (qr p.shape) r i)).map (fun x => -x)
            else (List.range size).map
                (fun i => sampler (qr p.scale) (qr p.shape) r i)))
    ∧ (∀ (r : ℕ) (p : Params) (row : List ℝ), params[r]? = some p →
        p.negative = true →
        (random_variables sampler params size)[r]? = some row →
        ∀ x ∈ row, ∃ d, 0 < d ∧ x = -d) := by
  have hchar : ∀ (r : ℕ) (p : Params), params[r]? = some p →
      (random_variables sampler params size)[r]? =
        some (if p.negative
          then ((List.range size).map
              (fun i => sampler (qr p.scale) (qr p.shape) r i)).map (fun x => -x)
          else (List.range size).map
              (fun i => sampler (qr p.scale) (qr p.shape) r i)) := by
    intro r p hp
    have hr : r < params.length := by
      obtain ⟨h, _⟩ := List.getElem?_eq_some.mp hp
      exact h
    have hrange : (List.range params.length)[r]? = some r := by
      simp [hr]
    have hdata : (List.zipWith
        (fun j q => (List.range size).map
          (fun i => sampler (qr q.scale) (qr q.shape) j i))
        (List.range params.length) params)[r]? =
        some ((List.range size).map
          (fun i => sampler (qr p.scale) (qr p.shape) r i)) :=
      getElem?_zipWith_some _ (List.range params.length) params r r p hrange hp
    simpa only [random_variables] using
      getElem?_zipWith_some
        (fun q row => if q.negative then row.map (fun x => -x) else row)
        params _ r p _ hp hdata
  have hlen : (random_variables sampler params size).length = params.length := by
    simp [random_variables]
  refine ⟨hlen, ?_, hchar, ?_⟩
  · intro row hrow
    rw [List.mem_iff_getElem?] at hrow
    obtain ⟨r, hr⟩ := hrow
    have hrlt : r < params.length := by
      obtain ⟨h, _⟩ := List.getElem?_eq_some.mp hr
      exact hlen ▸ h
    have hp : params[r]? = some params[r] := List.getElem?_eq_getElem hrlt
    have := hchar r params[r] hp
    rw [hr] at this
    have hroweq := (Option.some.injEq _ _).mp this.symm
    subst hroweq
    split <;> simp
  · intro r p row hp hneg hrow x hx
    have := hchar r p hp
    rw [hrow, hneg, if_pos rfl] at this
    have hroweq := (Option.some.injEq _ _).mp this
    rw [hroweq] at hx
    simp only [List.map_map, List.mem_map, List.mem_range, Function.comp] at hx
    obtain ⟨i, _, hxi⟩ := hx
    exact ⟨sampler (qr p.scale) (qr p.shape) r i, hpos _ _ _ _, hxi.symm⟩

/-- C7 witness: the theorem applied to the everywhere-positive generator
`exp(mu + sigma + r + i)` on a two-row table. -/
theorem C7_random_variables_postdraw_negation_witness :
    (random_variables (fun mu sigma r i => Real.exp (mu + sigma + r + i))
      [rowGood, rowNeg] 4).length = ([rowGood, rowNeg] : List Params).length
    ∧ (∀ row ∈ random_variables (fun mu sigma r i => Real.exp (mu + sigma + r + i))
        [rowGood, rowNeg] 4, row.length = 4)
    ∧ (∀ (r : ℕ) (p : Params), ([rowGood, rowNeg] : List Params)[r]? = some p →
        (random_variables (fun mu sigma r i => Real.exp (mu + sigma + r + i))
          [rowGood, rowNeg] 4)[r]? =
          some (if p.negative
            then ((List.range 4).map
                (fun i => Real.exp (qr p.scale + qr p.shape + r + i))).map (fun x => -x)
            else (List.range 4).map
                (fun i => Real.exp (qr p.scale + qr p.shape + r + i))))
    ∧ (∀ (r : ℕ) (p : Params) (row : List ℝ),
        ([rowGood, rowNeg] : List Params)[r]? = some p → p.negative = true →
        (random_variables (fun mu sigma r i => Real.exp (mu + sigma + r + i))
          [rowGood, rowNeg] 4)[r]? = some row →
        ∀ x ∈ row, ∃ d, 0 < d ∧ x = -d) :=
  C7_random_variables_postdraw_negation
    (fun mu sigma r i => Real.exp (mu + sigma + r + i)) [rowGood, rowNeg] 4
    (fun _ _ _ _ => Real.exp_pos _)

/-- C5: for a mirrored row, every statistic is the negation of the one
computed for the identical non-mirrored row, with `lower`/`upper`
additionally swapped with each other before the sign multiplication, and
the non-mirrored `median` (the value before sign adjustment) is
`exp(scale)`. -/
theorem C5_statistics_mirrored (snf : Params → Params) (p : Params)
    (hneg : p.negative = true) :
    (statistics snf p false).median =
      -(statistics snf { p with negative := false } false).median
    ∧ (statistics snf p false).mode =
      -(statistics snf { p with negative := false } false).mode
    ∧ (statistics snf p false).mean =
      -(statistics snf { p with negative := false } false).mean
    ∧ (statistics snf p false).lower =
      -(statistics snf { p with negative := false } false).upper
    ∧ (statistics snf p false).upper =
      -(statistics snf { p with negative := false } false).lower
    ∧ (statistics snf { p with negative := false } false).median =
      Real.exp (qr p.scale) := by
  norm_num [statistics, hneg]

/-- C5 witness: the theorem applied to the concrete mirrored row
`rowNeg`. -/
theorem C5_statistics_mirrored_witness :
    (statistics id rowNeg false).median =
      -(statistics id { rowNeg with negative := false } false).median
    ∧ (statistics id rowNeg false).mode =
      -(statistics id { rowNeg with negative := false } false).mode
    ∧ (statistics id rowNeg false).mean =
      -(statistics id { rowNeg with negative := false } false).mean
    ∧ (statistics id rowNeg false).lower =
      -(statistics id { rowNeg with negative := false } false).upper
    ∧ (statistics id rowNeg false).upper =
      -(statistics id { rowNeg with negative := false } false).lower
    ∧ (statistics id { rowNeg with negative := false } false).median =
      Real.exp (qr rowNeg.scale) :=
  C5_statistics_mirrored id rowNeg rfl

/-- C9: for a row with real positive `scale` and `shape`, the record
returned by `statistics` satisfies `lower ≤ upper`, whatever the value of
the `negative` flag (the swap before negation preserves the interval
orientation). -/
theorem C9_statistics_interval_oriented (snf : Params → Params) (p : Params)
    (sc sh : ℚ) (hsc : p.scale = some sc) (hsh : p.shape = some sh)
    (hscpos : 0 < sc) (hshpos : 0 < sh) :
    (statistics snf p false).lower ≤ (statistics snf p false).upper := by
  have hq : qr p.shape = (sh : ℝ) := by simp [qr, hsh]
  have hexp1 : (1 : ℝ) ≤ Real.exp (qr p.shape) ^ 2 := by
    rw [hq]
    have h := Real.one_le_exp (x := (sh : ℝ)) (by exact_mod_cast hshpos.le)
    nlinarith [h]
  have hmu : (0 : ℝ) < Real.exp (qr p.scale) := Real.exp_pos _
  have h2 : (0 : ℝ) < Real.exp (qr p.shape) ^ 2 := by positivity
  have key : Real.exp (qr p.scale) / Real.exp (qr p.shape) ^ 2 ≤
      Real.exp (qr p.scale) * Real.exp (qr p.shape) ^ 2 := by
    rw [div_le_iff₀ h2, mul_assoc]
    exact le_mul_of_one_le_right hmu.le
      (hexp1.trans (le_mul_of_one_le_right h2.le hexp1))
  cases hb : p.negative with
  | false =>
    simpa [statistics, hb, show ¬((1 : ℝ) = -1) by norm_num] using key
  | true => simpa [statistics, hb] using neg_le_neg key

/-- C9 witness: the theorem applied to a non-mirrored and a mirrored
concrete row, both with `scale = 2` and `shape = 3`. -/
theorem C9_statistics_interval_oriented_witness :
    (statistics id rowGood false).lower ≤ (statistics id rowGood false).upper
    ∧ (statistics id rowNeg false).lower ≤ (statistics id rowNeg false).upper :=
  ⟨C9_statistics_interval_oriented id rowGood 2 3 rfl rfl (by decide) (by decide),
   C9_statistics_interval_oriented id rowNeg 2 3 rfl rfl (by decide) (by decide)⟩

/-- Example row with both plotting bounds set: `minimum = 3`,
`maximum = 7`. -/
def rowMinMax : Params :=
  { loc := some 1, scale := some 2, shape := some 3,
    minimum := some 3, maximum := some 7, negative := false }

/-- Example row with `minimum = 3` set and `maximum` unset (NaN). -/
def rowMinOnly : Params :=
  { loc := some 1, scale := some 2, shape := some 3,
    minimum := some 3, maximum := none, negative := false }

/-- C4: in the default plotting domain of `pdf`, when `minimum` is set
the synthesized lower bound is `abs(minimum)`, and when `maximum` is
also set the synthesized upper bound is the same `abs(minimum)` value
(not `abs(maximum)`); when `maximum` is unset the upper bound is
`scale * exp(shape)^sd`; and with no abscissae supplied `pdf` lays its
points on `linspace` between exactly these two bounds. -/
theorem C4_pdf_maximum_reuses_minimum (sd : ℝ) (p : Params) (m : ℚ)
    (hm : p.minimum = some m) :
    (∀ M : ℚ, p.maximum = some M →
      pdfDefaultMaximum sd p = |(m : ℝ)| ∧ pdfDefaultMinimum sd p = |(m : ℝ)|)
    ∧ (p.maximum = none →
      pdfDefaultMaximum sd p = qr p.scale * Real.exp (qr p.shape) ^ sd)
    ∧ ∀ (dens : ℝ → ℝ → ℝ → ℝ) (npts : ℕ), p.negative = false →
      (pdf dens sd npts p none).1 =
        linspace (pdfDefaultMinimum sd p) (pdfDefaultMaximum sd p) npts := by
  refine ⟨fun M hM => ⟨?_, ?_⟩, fun hM => ?_, fun dens npts hneg => ?_⟩
  · simp [pdfDefaultMaximum, hM, hm, qr]
  · simp [pdfDefaultMinimum, hm, qr]
  · simp [pdfDefaultMaximum, hM]
  · simp [pdf, hneg]

/-- C4 witness: the theorem applied to a row with both bounds set and to
a row with `maximum` unset. -/
theorem C4_pdf_maximum_reuses_minimum_witness :
    ((∀ M : ℚ, rowMinMax.maximum = some M →
      pdfDefaultMaximum 2 rowMinMax = |((3 : ℚ) : ℝ)| ∧
        pdfDefaultMinimum 2 rowMinMax = |((3 : ℚ) : ℝ)|)
    ∧ (rowMinMax.maximum = none →
      pdfDefaultMaximum 2 rowMinMax = qr rowMinMax.scale * Real.exp (qr rowMinMax.shape) ^ (2 : ℝ))
    ∧ ∀ (dens : ℝ → ℝ → ℝ → ℝ) (npts : ℕ), rowMinMax.negative = false →
      (pdf dens 2 npts rowMinMax none).1 =
        linspace (pdfDefaultMinimum 2 rowMinMax) (pdfDefaultMaximum 2 rowMinMax) npts)
    ∧ ((∀ M : ℚ, rowMinOnly.maximum = some M →
      pdfDefaultMaximum 2 rowMinOnly = |((3 : ℚ) : ℝ)| ∧
        pdfDefaultMinimum 2 rowMinOnly = |((3 : ℚ) : ℝ)|)
    ∧ (rowMinOnly.maximum = none →
      pdfDefaultMaximum 2 rowMinOnly = qr rowMinOnly.scale * Real.exp (qr rowMinOnly.shape) ^ (2 : ℝ))
    ∧ ∀ (dens : ℝ → ℝ → ℝ → ℝ) (npts : ℕ), rowMinOnly.negative = false →
      (pdf dens 2 npts rowMinOnly none).1 =
        linspace (pdfDefaultMinimum 2 rowMinOnly) (pdfDefaultMaximum 2 rowMinOnly) npts) :=
  ⟨C4_pdf_maximum_reuses_minimum 2 rowMinMax 3 rfl,
   C4_pdf_maximum_reuses_minimum 2 rowMinOnly 3 rfl⟩

/-- Example valid non-mirrored row used for the round-trip check:
`loc = 1`, `scale = 1` (mu), `shape = 2` (sigma). -/
def rowRoundtrip : Params :=
  { loc := some 1, scale := some 1, shape := some 2,
    minimum := none, maximum := none, negative := false }

/-- C1 (refuted by the code): with the documented closed forms of the
scipy kernels, whatever the standard normal CDF `Φ` and a quantile
function inverting it, the round trip `ppf(cdf(·))` at the valid
non-mirrored row (`loc = 1`, `scale = 1`, `shape = 2`) and support point
`x = e` returns `e²`, and the gap `e² − e` exceeds 1, so no numerical
tolerance accounts for it. The cause: `cdf` feeds (`scale`, `loc`) into
the primitive slots that `ppf` inverts with (`shape`, `scale`). -/
theorem C1_roundtrip_fails (Φ Φinv : ℝ → ℝ) (hinv : ∀ y, Φinv (Φ y) = y) :
    ∃ res buf,
      cdf (lognormCdf Φ) [rowRoundtrip] (.two [[Real.exp 1]]) = .ok (res, buf)
      ∧ ppf (lognormPpf Φinv) [rowRoundtrip] (.two res) = .ok [[Real.exp 2]]
      ∧ 1 + Real.exp 1 < Real.exp 2 := by
  have hcdf : cdf (lognormCdf Φ) [rowRoundtrip] (.two [[Real.exp 1]]) =
      .ok ([[Φ 1]], [[Real.exp 1]]) := by
    simp [cdf, check_2d_inputs, flipNegativeRows, lognormCdf, rowRoundtrip, qr]
  have hppf : ppf (lognormPpf Φinv) [rowRoundtrip] (.two [[Φ 1]]) =
      .ok [[Real.exp 2]] := by
    simp [ppf, check_2d_inputs, flipNegativeRows, lognormPpf, rowRoundtrip, qr,
      hinv 1]
  refine ⟨[[Φ 1]], [[Real.exp 1]], hcdf, hppf, ?_⟩
  have h1 : (2.7182818283 : ℝ) < Real.exp 1 := Real.exp_one_gt_d9
  have h2 : Real.exp 2 = Real.exp 1 * Real.exp 1 := by
    rw [← Real.exp_add]
    norm_num
  nlinarith [h1, h2]

/-- C1 witness: the theorem instantiated with the identity in place of
the normal CDF and its inverse. -/
theorem C1_roundtrip_fails_witness :
    ∃ res buf,
      cdf (lognormCdf id) [rowRoundtrip] (.two [[Real.exp 1]]) = .ok (res, buf)
      ∧ ppf (lognormPpf id) [rowRoundtrip] (.two res) = .ok [[Real.exp 2]]
      ∧ 1 + Real.exp 1 < Real.exp 2 :=
  C1_roundtrip_fails id id (fun _ => rfl)

end StatsArrays
